import Mathlib

/-!
Verification development for the `gdext-generation` crate: a shallow
embedding of the target-matrix resolution and manifest-synthesis engine
(architecture/mode/system catalogs, target resolver, library-path matrix
enumerator, base-class inference scanner, icon-table builder and
dependency-table builder), together with theorems settling the frozen
claims about the specification.

Modelling conventions:
- Rust `String`/`&str` values are Lean `String`s; paths are strings with
  Unix-style separators (the code normalizes every separator to a forward
  slash in its output, so this loses nothing for the claims at hand).
- `toml::Table`/`InlineTable` maps are modelled as association lists with
  an `insert` that replaces the value of an existing key in place and
  otherwise appends; lookup and entry-count semantics agree with the
  ordered map used by the code, only the iteration order differs (no
  claim depends on iteration order).
- Fallible code is `Option`-valued; a `panic`/`expect` failure is `none`.
- Rust character classes are modelled at ASCII level (the scanner claims
  only involve ASCII source text).
-/

set_option autoImplicit false

/-! ## Character and string utilities (models of the Rust std functions used) -/

/-- The backslash character, the separator the code replaces by a forward slash. -/
def backslashChar : Char := Char.ofNat 92

/-- The opening curly-brace character (one of the delimiters the struct pattern accepts). -/
def openBraceChar : Char := Char.ofNat 123

/-- Model of Rust `char::is_whitespace` / the regex class `\s`, at ASCII level. -/
def isWS (c : Char) : Bool := c = ' ' || c = '\t' || c = '\n' || c = '\r'

/-- Model of the regex class `[\w_\d]` (word characters), at ASCII level. -/
def isWordChar (c : Char) : Bool := c.isAlpha || c.isDigit || c = '_'

/-- Model of the (quirky) regex class `[\w|_|\d]`, which also admits the pipe. -/
def isWordBarChar (c : Char) : Bool := isWordChar c || c = '|'

/-- Model of `str::contains` for a literal needle: substring test. -/
def hasInfix (needle : List Char) : List Char → Bool
  | [] => needle.isEmpty
  | c :: rest => needle.isPrefixOf (c :: rest) || hasInfix needle rest

/-- Model of `.replace('\\', "/")`: every backslash becomes a forward slash. -/
def normalizeSeps (s : String) : String :=
  String.mk (s.data.map (fun c => if c = backslashChar then '/' else c))

/-- Model of `Path::join` followed by display with `/` separators: an
absolute right operand replaces the path, joining onto the empty path
yields the operand, and no duplicate separator is introduced. -/
def pathJoin (a b : String) : String :=
  if b.startsWith "/" then b
  else if a = "" then b
  else if a.endsWith "/" then a ++ b
  else a ++ "/" ++ b

/-- Model of `str::trim` (ASCII whitespace). -/
def trimChars (l : List Char) : List Char :=
  ((l.dropWhile isWS).reverse.dropWhile isWS).reverse

/-- Model of `str::replace("base", "")`: drop every (non-overlapping,
left-to-right) occurrence of `base`. -/
def replaceBase : List Char → List Char
  | 'b' :: 'a' :: 's' :: 'e' :: rest => replaceBase rest
  | c :: rest => c :: replaceBase rest
  | [] => []

/-- Model of `str::replace("struct", "")`: drop every (non-overlapping,
left-to-right) occurrence of `struct`. -/
def replaceStruct : List Char → List Char
  | 's' :: 't' :: 'r' :: 'u' :: 'c' :: 't' :: rest => replaceStruct rest
  | c :: rest => c :: replaceStruct rest
  | [] => []

/-- Model of `Regex::find`: try a single-position matcher at every start
position from left to right and return the first (leftmost) match. -/
def findMatch (f : List Char → Option (List Char)) : List Char → Option (List Char)
  | [] => f []
  | c :: rest =>
    match f (c :: rest) with
    | some m => some m
    | none => findMatch f (c :: rest |>.tail)

example : findMatch (fun l => if l.isPrefixOf ['a', 'b'] then none else none) ['a'] = none := rfl

/-! ## The feature catalogs (src/features/{arch,mode,sys}.rs) -/

/-- Model of `Architecture` (src/features/arch.rs). -/
inductive Architecture
  | x86_32
  | x86_64
  | armv7
  | arm64
  | rv64
  | wasm32
  | generic
  deriving DecidableEq, Repr

/-- Model of `Architecture::get_rust_name` (src/features/arch.rs). -/
def Architecture.get_rust_name : Architecture → String
  | .x86_32 => "i686"
  | .x86_64 => "x86_64"
  | .armv7 => "armv7"
  | .arm64 => "aarch64"
  | .rv64 => "riscv64gc"
  | .wasm32 => "wasm32"
  | .generic => ""

/-- Model of `Architecture::get_godot_name` (src/features/arch.rs). -/
def Architecture.get_godot_name : Architecture → String
  | .x86_32 => "x86_32"
  | .x86_64 => "x86_64"
  | .armv7 => "arm_32"
  | .arm64 => "arm_64"
  | .rv64 => "rv_64"
  | .wasm32 => "wasm32"
  | .generic => ""

/-- Model of `WindowsABI` (src/features/sys.rs, identical in src/args/mod.rs). -/
inductive WindowsABI
  | msvc
  | mingw
  | llvm
  deriving DecidableEq, Repr

/-- Model of `WindowsABI::get_rust_name` (src/features/sys.rs). -/
def WindowsABI.get_rust_name : WindowsABI → String
  | .msvc => "msvc"
  | .mingw => "gnu"
  | .llvm => "gnullvm"

/-- Model of `System` (src/features/sys.rs). -/
inductive System
  | android
  | ios
  | linux
  | macos
  | web
  | windows (abi : WindowsABI)
  deriving DecidableEq, Repr

/-- Model of `System::get_systems` (src/features/sys.rs). -/
def System.get_systems (windows_abi : WindowsABI) : List System :=
  [.android, .ios, .linux, .macos, .web, .windows windows_abi]

/-- Model of `System::get_architectures` (src/features/sys.rs). -/
def System.get_architectures : System → List Architecture
  | .android => [.generic, .armv7, .arm64, .x86_32, .x86_64]
  | .ios => [.generic, .arm64]
  | .linux => [.generic, .arm64, .rv64, .x86_64]
  | .macos => [.generic, .arm64, .x86_64]
  | .web => [.generic, .wasm32]
  | .windows _ => [.generic, .arm64, .x86_32, .x86_64]

/-- Model of `System::get_name` (src/features/sys.rs). -/
def System.get_name : System → String
  | .android => "android"
  | .ios => "ios"
  | .linux => "linux"
  | .macos => "macos"
  | .web => "web"
  | .windows _ => "windows"

/-- Model of `System::get_lib_export_name` (src/features/sys.rs): `format!("{}{}.{}", ...)`. -/
def System.get_lib_export_name (s : System) (lib_name : String) : String :=
  (match s with
    | .ios | .linux | .macos => "lib"
    | .android | .windows _ | .web => "")
  ++ lib_name ++ "."
  ++ (match s with
    | .android | .linux => "so"
    | .ios => "ios.framework"
    | .macos => "dylib"
    | .web => "wasm"
    | .windows _ => "dll")

/-- Model of `Mode` (src/features/mode.rs). -/
inductive Mode
  | debug
  | release
  | editor
  deriving DecidableEq, Repr

/-- Model of `Mode::get_modes` (src/features/mode.rs). -/
def Mode.get_modes : List Mode := [.debug, .release, .editor]

/-- Model of `Mode::get_rust_name` (src/features/mode.rs). -/
def Mode.get_rust_name : Mode → String
  | .debug | .editor => "debug"
  | .release => "release"

/-- Model of `Mode::get_godot_name` (src/features/mode.rs). -/
def Mode.get_godot_name : Mode → String
  | .debug => "debug"
  | .release => "release"
  | .editor => "editor"

/-! ## The target resolver (src/features/target.rs) -/

/-- Model of `Target` (src/features/target.rs): the tuple struct `Target(System, Mode, Architecture)`. -/
structure Target where
  sys : System
  mode : Mode
  arch : Architecture
  deriving DecidableEq, Repr

/-- Model of `Target::get_rust_target_triple` (src/features/target.rs). -/
def Target.get_rust_target_triple (t : Target) : String :=
  if t.arch = Architecture.generic then ""
  else
    match t.sys with
    | .android =>
      t.arch.get_rust_name ++ "-linux-" ++ t.sys.get_name
        ++ (if t.arch = Architecture.armv7 then "eabi" else "")
    | .ios => t.arch.get_rust_name ++ "-apple-" ++ t.sys.get_name
    | .linux => t.arch.get_rust_name ++ "-unknown-" ++ t.sys.get_name ++ "-gnu"
    | .macos => t.arch.get_rust_name ++ "-apple-darwin"
    | .web => t.arch.get_rust_name ++ "-unknown-emscripten"
    | .windows windows_abi =>
      t.arch.get_rust_name ++ "-pc-" ++ t.sys.get_name ++ "-" ++ windows_abi.get_rust_name

/-- Model of `Target::get_godot_target` (src/features/target.rs). -/
def Target.get_godot_target (t : Target) : String :=
  if t.arch = Architecture.generic then
    t.sys.get_name ++ "." ++ t.mode.get_godot_name
  else
    t.sys.get_name ++ "." ++ t.mode.get_godot_name ++ "." ++ t.arch.get_godot_name

example : (Target.mk (.windows .mingw) .editor .x86_64).get_rust_target_triple
    = "x86_64-pc-windows-gnu" := by decide

example : (Target.mk .macos .release .arm64).get_godot_target = "macos.release.arm_64" := by
  decide

/-! ## Call arguments (src/args/mod.rs) -/

/-- Model of `PROJECT_FOLDER` (src/args/mod.rs): paths relative to the Godot project folder. -/
def projectFolderMarker : String := "res://"

/-- Model of `GDEXTENSION_FOLDER` (src/args/mod.rs): paths relative to the `.gdextension` folder. -/
def gdextensionFolderMarker : String := ""

/-- Model of `BaseDirectory` (src/args/mod.rs). -/
inductive BaseDirectory
  | projectFolder
  | gdextensionFolder
  deriving DecidableEq, Repr

/-- Model of `BaseDirectory::as_str` (src/args/mod.rs). -/
def BaseDirectory.as_str : BaseDirectory → String
  | .projectFolder => projectFolderMarker
  | .gdextensionFolder => gdextensionFolderMarker

/-- Model of `Default for BaseDirectory` (src/args/mod.rs): `ProjectFolder`. -/
def BaseDirectory.default : BaseDirectory := .projectFolder

/-! ## The manifest data structure (src/gdext/mod.rs, src/gdext/config.rs) -/

/-- Model of `toml::Table` string-to-string sections: an association list;
`tableInsert` replaces in place on an existing key and appends otherwise,
matching map-insert semantics (iteration order aside). -/
abbrev TomlTable : Type := List (String × String)

/-- Map-insert on the association-list model of `toml::Table`. -/
def tableInsert : TomlTable → String → String → TomlTable
  | [], k, v => [(k, v)]
  | (k', v') :: rest, k, v =>
    if k' = k then (k, v) :: rest else (k', v') :: tableInsert rest k v

/-- Map lookup on the association-list model of `toml::Table`. -/
def tableLookup : TomlTable → String → Option String
  | [], _ => none
  | (k', v') :: rest, k => if k' = k then some v' else tableLookup rest k

/-- The keys of a table, in order. -/
def tableKeys (t : TomlTable) : List String := t.map Prod.fst

/-- Model of `Configuration` (src/gdext/config.rs). The compatibility bounds are
`f64` in the code; they are carried opaquely here (no claim inspects them). -/
structure Configuration where
  entry_symbol : String
  compatibility_minimum : Option Float
  compatibility_maximum : Option Float
  reloadable : Option Bool
  android_aar_plugin : Option Bool

/-- Model of `DEFAULT_ENTRY_SYMBOL` (src/args/mod.rs). -/
def defaultEntrySymbol : String := "gdext_rust_init"

/-- Model of `Default for Configuration` (src/gdext/config.rs), with the
`GodotRustDefault` entry symbol. -/
def Configuration.default : Configuration :=
  { entry_symbol := defaultEntrySymbol
    compatibility_minimum := none
    compatibility_maximum := none
    reloadable := none
    android_aar_plugin := none }

/-- The `Configuration` value built by `generate_gdextension_file`'s default
(src/lib.rs lines 274-280): `Configuration::new(GodotRustDefault, Some((4, 1)), None, true, false)`. -/
def Configuration.godotRustBookDefault : Configuration :=
  { entry_symbol := defaultEntrySymbol
    compatibility_minimum := some 4.1
    compatibility_maximum := none
    reloadable := some true
    android_aar_plugin := none }

/-- Model of `GDExtension` (src/gdext/mod.rs): the manifest aggregate handed to the
TOML serializer (configuration, libraries, optional icons; the
dependencies section is spliced in after serialization by `toml_edit`). -/
structure GDExtension where
  configuration : Configuration
  libraries : TomlTable
  icons : Option TomlTable

/-- Model of `GDExtension::from_config` (src/gdext/mod.rs): libraries and icons empty. -/
def GDExtension.from_config (configuration : Configuration) : GDExtension :=
  { configuration := configuration
    libraries := []
    icons := none }

/-! ## The matrix enumerator (src/gdext/libs.rs) -/

/-- Model of `GDExtension::generate_libs` (src/gdext/libs.rs): for every system,
every architecture the system supports and every mode, insert the
resolved Godot target key mapped to the artifact path (base-directory
marker, then `target_dir`, the Rust target triple unless the architecture
is `Generic`, the mode folder and the exported library file name, with
backslashes normalized to forward slashes). -/
def GDExtension.generate_libs (gdext : GDExtension) (base_dir : BaseDirectory)
    (lib_name : String) (windows_abi : WindowsABI) (target_dir : String) : GDExtension :=
  { gdext with
    libraries :=
      (System.get_systems windows_abi).foldl (fun tbl system =>
        (system.get_architectures).foldl (fun tbl architecture =>
          (Mode.get_modes).foldl (fun tbl mode =>
            let target : Target := ⟨system, mode, architecture⟩
            tableInsert tbl target.get_godot_target
              (if target.arch = Architecture.generic then
                base_dir.as_str ++
                  normalizeSeps (pathJoin (pathJoin target_dir target.mode.get_rust_name)
                    (target.sys.get_lib_export_name lib_name))
              else
                base_dir.as_str ++
                  normalizeSeps (pathJoin (pathJoin
                      (pathJoin target_dir target.get_rust_target_triple)
                      target.mode.get_rust_name)
                    (target.sys.get_lib_export_name lib_name))))
            tbl)
          tbl)
        gdext.libraries }

/-- The enumeration order of the three nested loops of `generate_libs`:
every `(System, Mode, Architecture)` combination, architectures filtered
by the system's catalog. -/
def libsEnum (windows_abi : WindowsABI) : List Target :=
  (System.get_systems windows_abi).flatMap fun system =>
    (system.get_architectures).flatMap fun architecture =>
      (Mode.get_modes).map fun mode => ⟨system, mode, architecture⟩

/-- The artifact path `generate_libs` records for one target (the claim-side
path formula: base-directory marker, then the generic or triple-qualified
build path, separators normalized). -/
def libArtifactPath (base_dir : BaseDirectory) (lib_name : String)
    (target_dir : String) (target : Target) : String :=
  if target.arch = Architecture.generic then
    base_dir.as_str ++
      normalizeSeps (pathJoin (pathJoin target_dir target.mode.get_rust_name)
        (target.sys.get_lib_export_name lib_name))
  else
    base_dir.as_str ++
      normalizeSeps (pathJoin (pathJoin
          (pathJoin target_dir target.get_rust_target_triple)
          target.mode.get_rust_name)
        (target.sys.get_lib_export_name lib_name))

example :
    ((GDExtension.from_config Configuration.default).generate_libs
        .projectFolder "rust" .msvc "../rust/target").libraries.length = 60 := by decide


/-- The insert-fold of a list of key/value pairs into a table (the shape of
the loops that populate `toml::Table` sections). -/
def tableInsertList (t : TomlTable) (l : List (String × String)) : TomlTable :=
  l.foldl (fun t p => tableInsert t p.1 p.2) t

/-- Inserting a key that is not present appends the entry. -/
theorem tableInsert_notMem (t : TomlTable) (k v : String) (h : k ∉ tableKeys t) :
    tableInsert t k v = t ++ [(k, v)] := by
  induction t with
  | nil => rfl
  | cons hd tl ih =>
    obtain ⟨a, b⟩ := hd
    simp only [tableKeys, List.map_cons, List.mem_cons, not_or] at h
    simp only [tableInsert, if_neg (Ne.symm h.1), ih h.2, List.cons_append]

/-- Keys of a concatenation. -/
theorem tableKeys_append (t u : TomlTable) :
    tableKeys (t ++ u) = tableKeys t ++ tableKeys u := by
  simp [tableKeys]

/-- Folding inserts of pairwise-distinct keys, none already present,
appends the pairs in order: no insertion overwrites an earlier entry. -/
theorem tableInsertList_of_fresh (l : List (String × String)) (t : TomlTable)
    (h1 : (l.map Prod.fst).Nodup) (h2 : ∀ p ∈ l, p.1 ∉ tableKeys t) :
    tableInsertList t l = t ++ l := by
  induction l generalizing t with
  | nil => simp [tableInsertList]
  | cons hd tl ih =>
    obtain ⟨a, b⟩ := hd
    simp only [List.map_cons, List.nodup_cons] at h1
    show tableInsertList (tableInsert t a b) tl = t ++ (a, b) :: tl
    rw [tableInsert_notMem t a b (h2 (a, b) (List.mem_cons_self _ _))]
    have hfresh : ∀ p ∈ tl, p.1 ∉ tableKeys (t ++ [(a, b)]) := by
      intro p hp
      rw [tableKeys_append]
      simp only [List.mem_append, not_or]
      refine ⟨h2 p (List.mem_cons_of_mem _ hp), ?_⟩
      simp only [tableKeys, List.map_cons, List.map_nil, List.mem_singleton]
      intro hc
      exact h1.1 (List.mem_map.mpr ⟨p, hp, hc⟩)
    rw [ih (t ++ [(a, b)]) h1.2 hfresh]
    simp

/-- Folding over a flattened list is the nested fold. -/
theorem foldl_flatMapT {α β γ : Type} (g : γ → List α) (f : β → α → β)
    (l : List γ) (init : β) :
    (l.flatMap g).foldl f init = l.foldl (fun acc x => (g x).foldl f acc) init := by
  induction l generalizing init with
  | nil => rfl
  | cons hd tl ih => simp [List.flatMap_cons, List.foldl_append, ih]

/-- The three nested loops of `generate_libs` are the insert-fold of the
enumerated `(Godot target, artifact path)` pairs into the receiver's table. -/
theorem generate_libs_libraries (gdext : GDExtension) (base_dir : BaseDirectory)
    (lib_name : String) (windows_abi : WindowsABI) (target_dir : String) :
    (gdext.generate_libs base_dir lib_name windows_abi target_dir).libraries
      = tableInsertList gdext.libraries ((libsEnum windows_abi).map fun target =>
          (target.get_godot_target, libArtifactPath base_dir lib_name target_dir target)) := by
  simp only [GDExtension.generate_libs, libsEnum, tableInsertList, foldl_flatMapT,
    List.foldl_map, libArtifactPath]

/-- The Godot-target keys of the library matrix do not depend on any input,
the Windows ABI included: one concrete list of 60 keys. -/
theorem libsEnum_keys_const (windows_abi : WindowsABI) :
    (libsEnum windows_abi).map Target.get_godot_target
      = (libsEnum WindowsABI.msvc).map Target.get_godot_target := by
  cases windows_abi <;> rfl

/-- The 60 Godot-target keys are pairwise distinct. -/
theorem libsEnum_keys_nodup (windows_abi : WindowsABI) :
    ((libsEnum windows_abi).map Target.get_godot_target).Nodup := by
  rw [libsEnum_keys_const]
  decide

/-- Structure of the matrix enumerator: starting from the empty libraries
table of `from_config`, `generate_libs` produces exactly one entry per
enumerated target, keyed by its Godot target and valued by its artifact
path; since the keys are pairwise distinct, no insertion overwrites an
earlier one. -/
theorem generate_libs_spec (windows_abi : WindowsABI) (c : Configuration)
    (base_dir : BaseDirectory) (lib_name : String) (target_dir : String) :
    ((GDExtension.from_config c).generate_libs base_dir lib_name windows_abi
        target_dir).libraries
      = (libsEnum windows_abi).map fun target =>
          (target.get_godot_target, libArtifactPath base_dir lib_name target_dir target) := by
  rw [generate_libs_libraries]
  show tableInsertList [] _ = _
  rw [tableInsertList_of_fresh]
  · simp
  · rw [List.map_map]
    exact libsEnum_keys_nodup windows_abi
  · intro p _
    simp [tableKeys]

/-- Associativity of string append, via the list representation. -/
theorem strAppend_assoc : ∀ (a b c : String), a ++ b ++ c = a ++ (b ++ c)
  | ⟨la⟩, ⟨lb⟩, ⟨lc⟩ => congrArg String.mk (List.append_assoc la lb lc)

/-- C1: `generate_libs` inserts exactly sum over systems of
architectures times modes entries, 60 in total, with pairwise-distinct keys. -/
theorem claim_C1 (windows_abi : WindowsABI) (c : Configuration)
    (base_dir : BaseDirectory) (lib_name : String) (target_dir : String) :
    ((GDExtension.from_config c).generate_libs base_dir lib_name windows_abi
          target_dir).libraries.length
        = ((System.get_systems windows_abi).map fun s =>
            s.get_architectures.length * Mode.get_modes.length).sum
    ∧ ((GDExtension.from_config c).generate_libs base_dir lib_name windows_abi
          target_dir).libraries.length = 60
    ∧ (tableKeys ((GDExtension.from_config c).generate_libs base_dir lib_name windows_abi
          target_dir).libraries).Nodup := by
  rw [generate_libs_spec]
  refine ⟨?_, ?_, ?_⟩
  · rw [List.length_map]
    cases windows_abi <;> decide
  · rw [List.length_map]
    cases windows_abi <;> decide
  · show (List.map Prod.fst _).Nodup
    rw [List.map_map]
    exact libsEnum_keys_nodup windows_abi

/-- C9: the set of platform-target keys of the libraries table is the same
for any two invocations of `generate_libs`, whatever the Windows ABI,
library name, base directory or target directory of each. -/
theorem claim_C9 (abi₁ abi₂ : WindowsABI) (c₁ c₂ : Configuration)
    (b₁ b₂ : BaseDirectory) (l₁ l₂ t₁ t₂ : String) :
    tableKeys ((GDExtension.from_config c₁).generate_libs b₁ l₁ abi₁ t₁).libraries
      = tableKeys ((GDExtension.from_config c₂).generate_libs b₂ l₂ abi₂ t₂).libraries := by
  rw [generate_libs_spec, generate_libs_spec]
  show (List.map Prod.fst _) = (List.map Prod.fst _)
  rw [List.map_map, List.map_map]
  cases abi₁ <;> cases abi₂ <;> rfl

/-- C6: the artifact path recorded for every enumerated target is the
base-directory marker followed by the generic
(`target_dir`/mode/filename) or triple-qualified
(`target_dir`/triple/mode/filename) build path, backslashes normalized. -/
theorem claim_C6 (windows_abi : WindowsABI) (c : Configuration)
    (base_dir : BaseDirectory) (lib_name : String) (target_dir : String) :
    ((GDExtension.from_config c).generate_libs base_dir lib_name windows_abi
        target_dir).libraries
      = (libsEnum windows_abi).map fun target =>
          (target.get_godot_target,
            if target.arch = Architecture.generic then
              base_dir.as_str ++ normalizeSeps
                (pathJoin (pathJoin target_dir target.mode.get_rust_name)
                  (target.sys.get_lib_export_name lib_name))
            else
              base_dir.as_str ++ normalizeSeps
                (pathJoin (pathJoin (pathJoin target_dir target.get_rust_target_triple)
                    target.mode.get_rust_name)
                  (target.sys.get_lib_export_name lib_name))) := by
  rw [generate_libs_spec]
  rfl

/-- C2: for every non-Generic architecture and every mode, the Rust target
triple follows the system-specific pattern, with the `eabi` suffix exactly
for the 32-bit ARM variant on Android and the ABI name interpolated on Windows. -/
theorem claim_C2 (a : Architecture) (m : Mode) (abi : WindowsABI)
    (h : a ≠ Architecture.generic) :
    (Target.mk .android m a).get_rust_target_triple
        = a.get_rust_name ++ "-linux-android"
          ++ (if a = Architecture.armv7 then "eabi" else "")
    ∧ (Target.mk .ios m a).get_rust_target_triple = a.get_rust_name ++ "-apple-ios"
    ∧ (Target.mk .linux m a).get_rust_target_triple = a.get_rust_name ++ "-unknown-linux-gnu"
    ∧ (Target.mk .macos m a).get_rust_target_triple = a.get_rust_name ++ "-apple-darwin"
    ∧ (Target.mk .web m a).get_rust_target_triple = a.get_rust_name ++ "-unknown-emscripten"
    ∧ (Target.mk (.windows abi) m a).get_rust_target_triple
        = a.get_rust_name ++ "-pc-windows-" ++ abi.get_rust_name := by
  cases a <;>
    first
      | exact absurd rfl h
      | exact ⟨rfl, rfl, rfl, rfl, rfl, by cases abi <;> rfl⟩

/-- Witness for C2 at the 32-bit ARM architecture in debug mode. -/
theorem claim_C2_witness :
    Architecture.armv7 ≠ Architecture.generic
    ∧ (Target.mk .android .debug .armv7).get_rust_target_triple
        = Architecture.armv7.get_rust_name ++ "-linux-android"
          ++ (if Architecture.armv7 = Architecture.armv7 then "eabi" else "") :=
  ⟨by decide, (claim_C2 .armv7 .debug .msvc (by decide)).1⟩

/-- C5: a Generic architecture resolves to the empty toolchain triple and a
two-part platform target; every other architecture resolves to a
three-part platform target. -/
theorem claim_C5 (s : System) (m : Mode) (a : Architecture) :
    (a = Architecture.generic →
        (Target.mk s m a).get_rust_target_triple = ""
        ∧ (Target.mk s m a).get_godot_target = s.get_name ++ "." ++ m.get_godot_name)
    ∧ (a ≠ Architecture.generic →
        (Target.mk s m a).get_godot_target
          = s.get_name ++ "." ++ m.get_godot_name ++ "." ++ a.get_godot_name) := by
  constructor
  · rintro rfl
    exact ⟨rfl, rfl⟩
  · intro h
    simp [Target.get_godot_target, h]

/-- Witness for C5 at MacOS/Release with the Generic and Arm64 architectures. -/
theorem claim_C5_witness :
    ((Target.mk .macos .release .generic).get_rust_target_triple = ""
      ∧ (Target.mk .macos .release .generic).get_godot_target
          = System.macos.get_name ++ "." ++ Mode.release.get_godot_name)
    ∧ (Target.mk .macos .release .arm64).get_godot_target
        = System.macos.get_name ++ "." ++ Mode.release.get_godot_name ++ "."
          ++ Architecture.arm64.get_godot_name :=
  ⟨(claim_C5 .macos .release .generic).1 rfl, (claim_C5 .macos .release .arm64).2 (by decide)⟩

/-- C10: the exported artifact filename per system: no `lib` prefix on
Android (unlike Linux), `lib` prefix on iOS/Linux/MacOS, and the
system-specific extension, independent of the Windows ABI. -/
theorem claim_C10 (lib_name : String) (abi : WindowsABI) :
    System.android.get_lib_export_name lib_name = lib_name ++ ".so"
    ∧ System.linux.get_lib_export_name lib_name = "lib" ++ lib_name ++ ".so"
    ∧ System.ios.get_lib_export_name lib_name = "lib" ++ lib_name ++ ".ios.framework"
    ∧ System.macos.get_lib_export_name lib_name = "lib" ++ lib_name ++ ".dylib"
    ∧ System.web.get_lib_export_name lib_name = lib_name ++ ".wasm"
    ∧ (System.windows abi).get_lib_export_name lib_name = lib_name ++ ".dll" := by
  unfold System.get_lib_export_name
  refine ⟨?_, ?_, ?_, ?_, ?_, ?_⟩ <;>
    simp only [String.empty_append, strAppend_assoc] <;> rfl

/-! ## Icon configuration (src/args.rs) and the icon table builder (src/gdext/icons.rs) -/

/-- Model of `NodeRust` (src/args.rs): the three bundled default icons. -/
inductive NodeRust
  | small
  | large
  | ferris
  deriving DecidableEq, Repr

/-- Model of `NODES_RUST_FILENAMES[node_rust as usize]` (src/lib.rs, indexed in
src/gdext/icons.rs): the bundled icon file name per variant. -/
def NodeRust.filename : NodeRust → String
  | .small => "NodeRustSmall.svg"
  | .large => "NodeRustLarge.svg"
  | .ferris => "NodeRustFerris.svg"

/-- Model of `DefaultNodeIcon` (src/args.rs). -/
inductive DefaultNodeIcon
  | custom (custom_path : String)
  | baseClass
  | nodeRust (node_rust : NodeRust) (rust_path : String)
  | node
  deriving DecidableEq, Repr

/-- Model of `IconsDirectories` (src/args.rs). -/
structure IconsDirectories where
  base_directory : String
  editor_directory : String
  custom_directory : String
  relative_directory : Option BaseDirectory
  deriving Repr

/-- Model of `IconsCopyStrategy` (src/args.rs); only consumed by the file-copying
step of `generate_icons`, which is collaborator-owned I/O. -/
structure IconsCopyStrategy where
  copy_node_rust : Bool
  copy_all : Bool
  path_node_rust : String
  force_copy : Bool
  deriving Repr

/-- Model of `IconsConfig` (src/args.rs); the override map `custom_icons` is a
`HashMap` in the code, modelled as a pair list with distinct keys. -/
structure IconsConfig where
  default : DefaultNodeIcon
  copy_strategy : IconsCopyStrategy
  custom_icons : Option (List (String × String))
  directories : IconsDirectories
  deriving Repr

/-- The icon path the default-icon policy constructs for one inferred
entity under base class `icon` (the `match icons_config.default` inside
`generate_icons`, src/gdext/icons.rs lines 71-114). -/
def defaultIconPath (icons_config : IconsConfig) (icon : String) : String :=
  match icons_config.default with
  | .baseClass =>
    (icons_config.directories.relative_directory.getD BaseDirectory.default).as_str
      ++ normalizeSeps (pathJoin (pathJoin icons_config.directories.base_directory
          icons_config.directories.editor_directory) icon)
      ++ ".svg"
  | .custom custom_path =>
    (icons_config.directories.relative_directory.getD BaseDirectory.default).as_str
      ++ normalizeSeps (pathJoin icons_config.directories.base_directory custom_path)
  | .nodeRust node_rust rust_path =>
    (icons_config.directories.relative_directory.getD BaseDirectory.default).as_str
      ++ normalizeSeps (pathJoin icons_config.directories.base_directory rust_path)
      ++ "/" ++ node_rust.filename
  | .node => "ERROR"

/-- The icon path derived for one explicit override entry (the insertion
under `if let Some(custom_icons)`, src/gdext/icons.rs lines 120-139). -/
def customIconPath (icons_config : IconsConfig) (icon : String) : String :=
  (icons_config.directories.relative_directory.getD BaseDirectory.default).as_str
    ++ normalizeSeps (pathJoin (pathJoin icons_config.directories.base_directory
        icons_config.directories.custom_directory) icon)

/-- The icons table built by `GDExtension::generate_icons`
(src/gdext/icons.rs lines 58-178, the pure table construction assigned to
`self.icons`; the `find_children` scan that produces `base_class_to_nodes`
and the icon-file copying are collaborator-owned I/O and are passed in /
omitted here): inferred entries are inserted first, the explicit override
pass runs second, and each insert overwrites any entry with the same key. -/
def GDExtension.generate_icons_table (icons_config : IconsConfig)
    (base_class_to_nodes : List (String × List String)) : TomlTable :=
  let icons : TomlTable := []
  let icons :=
    if icons_config.default ≠ DefaultNodeIcon.node then
      base_class_to_nodes.foldl (fun icons p =>
        p.2.foldl (fun icons node =>
          tableInsert icons node (defaultIconPath icons_config p.1)) icons) icons
    else icons
  match icons_config.custom_icons with
  | some custom_icons =>
    custom_icons.foldl (fun icons p =>
      tableInsert icons p.1 (customIconPath icons_config p.2)) icons
  | none => icons

/-- Model of `self.icons = Some(icons)` at the end of `generate_icons`. -/
def GDExtension.generate_icons (gdext : GDExtension) (icons_config : IconsConfig)
    (base_class_to_nodes : List (String × List String)) : GDExtension :=
  { gdext with icons := some (GDExtension.generate_icons_table icons_config base_class_to_nodes) }

/-! ## Table lookup lemmas -/

/-- Looking up the key just inserted yields the inserted value. -/
theorem tableLookup_insert_self (t : TomlTable) (k v : String) :
    tableLookup (tableInsert t k v) k = some v := by
  induction t with
  | nil => simp [tableInsert, tableLookup]
  | cons hd tl ih =>
    obtain ⟨a, b⟩ := hd
    by_cases h : a = k
    · simp [tableInsert, tableLookup, h]
    · simp [tableInsert, tableLookup, h, ih]

/-- Inserting under a different key does not change a lookup. -/
theorem tableLookup_insert_ne (t : TomlTable) (k k' v : String) (h : k' ≠ k) :
    tableLookup (tableInsert t k v) k' = tableLookup t k' := by
  induction t with
  | nil => simp [tableInsert, tableLookup, Ne.symm h]
  | cons hd tl ih =>
    obtain ⟨a, b⟩ := hd
    by_cases hak : a = k
    · subst hak
      simp [tableInsert, tableLookup, Ne.symm h]
    · simp [tableInsert, tableLookup, hak, ih]

/-- A fold of inserts whose keys all differ from `k` does not change the
lookup at `k`. -/
theorem tableLookup_foldl_of_ne (l : List (String × String)) (v : String × String → String)
    (t : TomlTable) (k : String) (h : ∀ q ∈ l, q.1 ≠ k) :
    tableLookup (l.foldl (fun t q => tableInsert t q.1 (v q)) t) k = tableLookup t k := by
  induction l generalizing t with
  | nil => rfl
  | cons hd tl ih =>
    simp only [List.foldl_cons]
    rw [ih (tableInsert t hd.1 (v hd)) (fun q hq => h q (List.mem_cons_of_mem _ hq))]
    exact tableLookup_insert_ne t hd.1 k (v hd) (fun hk => h hd (List.mem_cons_self _ _) hk.symm)

/-- After folding inserts over a list with pairwise-distinct keys, every
listed key looks up to its own inserted value, whatever the initial table. -/
theorem tableLookup_foldl_nodup (l : List (String × String)) (v : String × String → String)
    (t : TomlTable) (p : String × String) (hp : p ∈ l) (hnd : (l.map Prod.fst).Nodup) :
    tableLookup (l.foldl (fun t q => tableInsert t q.1 (v q)) t) p.1 = some (v p) := by
  induction l generalizing t with
  | nil => cases hp
  | cons hd tl ih =>
    simp only [List.map_cons, List.nodup_cons] at hnd
    simp only [List.foldl_cons]
    rcases List.mem_cons.mp hp with rfl | hmem
    · rw [tableLookup_foldl_of_ne tl v _ p.1 ?hne]
      · exact tableLookup_insert_self t p.1 (v p)
      case hne =>
        intro q hq hqk
        exact hnd.1 (List.mem_map.mpr ⟨q, hq, hqk⟩)
    · exact ih _ hmem hnd.2

/-- C7: explicit overrides always win in the icon table: for every entry of
the override map (whose keys are distinct, as in the `HashMap` the code
iterates), the final table maps that entity to the override-derived path,
whether or not an inferred entry existed for it. -/
theorem claim_C7 (icons_config : IconsConfig)
    (base_class_to_nodes : List (String × List String))
    (custom : List (String × String)) (hc : icons_config.custom_icons = some custom)
    (hnd : (custom.map Prod.fst).Nodup) (p : String × String) (hp : p ∈ custom) :
    tableLookup (GDExtension.generate_icons_table icons_config base_class_to_nodes) p.1
      = some (customIconPath icons_config p.2) := by
  unfold GDExtension.generate_icons_table
  rw [hc]
  exact tableLookup_foldl_nodup custom (fun q => customIconPath icons_config q.2) _ p hp hnd

/-- Concrete icons configuration used by the witness for C7: base-class
default policy, one inferred entity `Foo` under `Node`, and overrides for
`Foo` (inferred) and `Baz` (never inferred). -/
def exampleIconsConfig : IconsConfig :=
  { default := DefaultNodeIcon.baseClass
    copy_strategy := { copy_node_rust := false, copy_all := false
                       path_node_rust := "addons", force_copy := false }
    custom_icons := some [("Foo", "foo.svg"), ("Baz", "baz.svg")]
    directories := { base_directory := "addons", editor_directory := "editor"
                     custom_directory := "rust", relative_directory := some .projectFolder } }

/-- Witness for C7: the override for the inferred entity `Foo` wins and the
override for the never-inferred entity `Baz` is present. -/
theorem claim_C7_witness :
    tableLookup (GDExtension.generate_icons_table exampleIconsConfig [("Node", ["Foo"])]) "Foo"
        = some (customIconPath exampleIconsConfig "foo.svg")
    ∧ tableLookup (GDExtension.generate_icons_table exampleIconsConfig [("Node", ["Foo"])]) "Baz"
        = some (customIconPath exampleIconsConfig "baz.svg") :=
  ⟨claim_C7 exampleIconsConfig [("Node", ["Foo"])] _ rfl (by decide) ("Foo", "foo.svg")
      (by decide),
    claim_C7 exampleIconsConfig [("Node", ["Foo"])] _ rfl (by decide) ("Baz", "baz.svg")
      (by decide)⟩

/-! ## The dependency table builder (src/gdext/deps.rs) -/

/-- The destination subfolder recorded for a dependency of `target` (the
`match target.0` inside `generate_deps`, src/gdext/deps.rs lines 44-48). -/
def depDestSubfolder (target : Target) : String :=
  match target.sys with
  | .macos => "Contents/Frameworks"
  | _ => ""

/-- The inline table of one target's dependencies (the inner loop of
`generate_deps`, src/gdext/deps.rs lines 37-50): each path keyed by the
project-folder marker plus the normalized path, mapped to the
system-dependent destination subfolder. -/
def depsEntries (target : Target) (paths : List String) : TomlTable :=
  paths.foldl (fun current_dependencies path =>
    tableInsert current_dependencies (projectFolderMarker ++ normalizeSeps path)
      (depDestSubfolder target)) []

/-- Model of `GDExtension::generate_deps` (src/gdext/deps.rs): one
`(godot target, inline table)` pair per dependency entry, in iteration
order (the `toml_edit` decor is presentation only and not modelled).
After each target's inner loop the code runs
`current_dependencies.iter_mut().last().unwrap()` (deps.rs lines 52-59)
to append a newline suffix, which panics when that target's path list is
empty; the panic is modelled as `none`, so a vector is produced only if
every listed target has at least one dependency path. -/
def GDExtension.generate_deps : List (Target × List String) → Option (List (String × TomlTable))
  | [] => some []
  | (target, paths) :: rest =>
    if depsEntries target paths = [] then none
    else
      (GDExtension.generate_deps rest).map
        (fun dependencies_vector =>
          (target.get_godot_target, depsEntries target paths) :: dependencies_vector)

-- The `unwrap` panic on an empty path list is preserved by the model.
example :
    GDExtension.generate_deps [(Target.mk .linux .debug .generic, [])] = none := by decide

example :
    GDExtension.generate_deps [(Target.mk .macos .debug .generic, ["a.dylib"]),
        (Target.mk .linux .debug .generic, [])] = none := by decide

/-- Inserting into a table never empties it. -/
theorem tableInsert_ne_nil (t : TomlTable) (k v : String) : tableInsert t k v ≠ [] := by
  cases t with
  | nil => simp [tableInsert]
  | cons hd tl =>
    obtain ⟨a, b⟩ := hd
    simp only [tableInsert]
    split <;> simp

/-- A target with at least one dependency path has a nonempty inline table. -/
theorem depsEntries_ne_nil (target : Target) (paths : List String) (h : paths ≠ []) :
    depsEntries target paths ≠ [] := by
  have general : ∀ (l : List String) (t : TomlTable), t ≠ [] →
      l.foldl (fun current_dependencies path =>
        tableInsert current_dependencies (projectFolderMarker ++ normalizeSeps path)
          (depDestSubfolder target)) t ≠ [] := by
    intro l
    induction l with
    | nil => intro t ht; exact ht
    | cons hd tl ih => intro t ht; exact ih _ (tableInsert_ne_nil _ _ _)
  cases paths with
  | nil => exact absurd rfl h
  | cons p rest =>
    simp only [depsEntries, List.foldl_cons]
    exact general rest _ (tableInsert_ne_nil _ _ _)

/-- When every listed target has at least one dependency path, the
generation succeeds and carries one inline table per listed target. -/
theorem generate_deps_mem (dependencies : List (Target × List String))
    (h_all : ∀ q ∈ dependencies, q.2 ≠ ([] : List String)) :
    ∃ dependencies_vector,
      GDExtension.generate_deps dependencies = some dependencies_vector
      ∧ ∀ q ∈ dependencies, (q.1.get_godot_target, depsEntries q.1 q.2) ∈ dependencies_vector := by
  induction dependencies with
  | nil => exact ⟨[], rfl, by simp⟩
  | cons hd tl ih =>
    obtain ⟨t', p'⟩ := hd
    obtain ⟨vec, hvec, hmem⟩ := ih (fun q hq => h_all q (List.mem_cons_of_mem _ hq))
    have hne : depsEntries t' p' ≠ [] :=
      depsEntries_ne_nil t' p' (h_all (t', p') (List.mem_cons_self _ _))
    refine ⟨(t'.get_godot_target, depsEntries t' p') :: vec, ?_, ?_⟩
    · show (if depsEntries t' p' = [] then none else _) = _
      rw [if_neg hne, hvec]
      rfl
    · intro q hq
      rcases List.mem_cons.mp hq with rfl | hq'
      · exact List.mem_cons_self _ _
      · exact List.mem_cons_of_mem _ (hmem q hq')

/-- Every value of a constant-value insert-fold is that constant. -/
theorem depsEntries_values (target : Target) (paths : List String) :
    ∀ e ∈ depsEntries target paths, e.2 = depDestSubfolder target := by
  have general : ∀ (l : List String) (t : TomlTable),
      (∀ e ∈ t, e.2 = depDestSubfolder target) →
      ∀ e ∈ l.foldl (fun t path =>
        tableInsert t (projectFolderMarker ++ normalizeSeps path)
          (depDestSubfolder target)) t, e.2 = depDestSubfolder target := by
    intro l
    induction l with
    | nil => intro t ht e he; exact ht e he
    | cons hd tl ih =>
      intro t ht e he
      refine ih _ ?_ e he
      intro e' he'
      have hins : ∀ (u : TomlTable) (k : String), (∀ x ∈ u, x.2 = depDestSubfolder target) →
          ∀ x ∈ tableInsert u k (depDestSubfolder target), x.2 = depDestSubfolder target := by
        intro u
        induction u with
        | nil =>
          intro k hu x hx
          simp only [tableInsert, List.mem_singleton] at hx
          subst hx
          rfl
        | cons h2 t2 ih2 =>
          intro k hu x hx
          simp only [tableInsert] at hx
          by_cases hk : h2.1 = k
          · rw [if_pos hk] at hx
            rcases List.mem_cons.mp hx with rfl | hx2
            · rfl
            · exact hu x (List.mem_cons_of_mem _ hx2)
          · rw [if_neg hk] at hx
            rcases List.mem_cons.mp hx with rfl | hx2
            · exact hu _ (List.mem_cons_self _ _)
            · exact ih2 k (fun y hy => hu y (List.mem_cons_of_mem _ hy)) x hx2
      exact hins t _ ht e' he'
  intro e he
  exact general paths [] (by simp) e he

/-- C8: provided no listed target has an empty path list (otherwise the
code panics at the `unwrap` and generates nothing), the dependencies
vector is produced with one inline table per listed target, and for every
dependency entry of every listed target the destination subfolder is
`Contents/Frameworks` exactly when the target's system is MacOS and the
empty string for every other system. -/
theorem claim_C8 (dependencies : List (Target × List String))
    (h_all : ∀ q ∈ dependencies, q.2 ≠ ([] : List String))
    (target : Target) (paths : List String) (h : (target, paths) ∈ dependencies) :
    (∃ dependencies_vector,
        GDExtension.generate_deps dependencies = some dependencies_vector
        ∧ (target.get_godot_target, depsEntries target paths) ∈ dependencies_vector)
    ∧ (∀ e ∈ depsEntries target paths,
        (target.sys = System.macos → e.2 = "Contents/Frameworks")
        ∧ (target.sys ≠ System.macos → e.2 = "")) := by
  constructor
  · obtain ⟨vec, hvec, hmem⟩ := generate_deps_mem dependencies h_all
    exact ⟨vec, hvec, hmem (target, paths) h⟩
  · intro e he
    have hv := depsEntries_values target paths e he
    obtain ⟨s, m, a⟩ := target
    constructor
    · intro hs
      rw [hv]
      have hsm : s = System.macos := hs
      subst hsm
      rfl
    · intro hs
      rw [hv]
      have hns : s ≠ System.macos := hs
      cases s <;> first | rfl | exact absurd rfl hns

/-- Concrete dependency map used by the witness for C8: one MacOS target
and one Linux target, each with a nonempty path list. -/
def exampleDeps : List (Target × List String) :=
  [(Target.mk .macos .release .generic, ["Frameworks/dep.dylib"]),
   (Target.mk .linux .debug .x86_64, ["libdep.so"])]

/-- Witness for C8 at the MacOS entry of `exampleDeps`, discharging both
the no-empty-path-list hypothesis and the membership hypothesis. -/
theorem claim_C8_witness :
    (∀ q ∈ exampleDeps, q.2 ≠ ([] : List String))
    ∧ (Target.mk .macos .release .generic, ["Frameworks/dep.dylib"]) ∈ exampleDeps
    ∧ ((∃ dependencies_vector,
          GDExtension.generate_deps exampleDeps = some dependencies_vector
          ∧ ((Target.mk .macos .release .generic).get_godot_target,
              depsEntries (Target.mk .macos .release .generic) ["Frameworks/dep.dylib"])
            ∈ dependencies_vector)
      ∧ ∀ e ∈ depsEntries (Target.mk .macos .release .generic) ["Frameworks/dep.dylib"],
          ((Target.mk .macos .release .generic).sys = System.macos →
            e.2 = "Contents/Frameworks")
          ∧ ((Target.mk .macos .release .generic).sys ≠ System.macos → e.2 = "")) :=
  ⟨by decide, by decide,
    claim_C8 exampleDeps (by decide) (Target.mk .macos .release .generic)
      ["Frameworks/dep.dylib"] (by decide)⟩

/-! ## The manifest-construction pipeline (src/lib.rs) -/

/-- The enumeration has exactly 60 targets, whatever the Windows ABI. -/
theorem libsEnum_length (windows_abi : WindowsABI) : (libsEnum windows_abi).length = 60 := by
  cases windows_abi <;> rfl

/-- The manifest value `generate_gdextension_file` hands to the TOML
serializer (src/lib.rs lines 266-299): the library name defaults to the
`CARGO_PKG_NAME` collaborator value with dashes replaced by underscores
(or `"rust"`), the target directory, configuration and Windows ABI fall
back to the godot-rust book defaults, and the manifest is
`from_config` followed by `generate_libs`. The early returns before this
point (gdextension-path extension validation, existing-file skip) return
without constructing any manifest, and the optional `generate_icons` step
only sets the `icons` field, so the libraries section handed onward is
exactly this one. -/
def generate_gdextension_manifest (base_dir : BaseDirectory) (target_dir : Option String)
    (configuration : Option Configuration) (windows_abi : Option WindowsABI)
    (cargo_pkg_name : Option String) : GDExtension :=
  let lib_name := (cargo_pkg_name.map (fun name =>
    String.mk (name.data.map (fun c => if c = '-' then '_' else c)))).getD "rust"
  let target_dir := target_dir.getD "../rust/target"
  let configuration := configuration.getD Configuration.godotRustBookDefault
  let windows_abi := windows_abi.getD WindowsABI.msvc
  (GDExtension.from_config configuration).generate_libs base_dir lib_name windows_abi target_dir

/-- C3 (amended): the code performs no emptiness validation, but every
manifest handed to the serializer has a non-empty libraries section: the
generation pipeline always resolves exactly 60 library entries before
serialization, for every combination of caller inputs. -/
theorem claim_C3 (base_dir : BaseDirectory) (target_dir : Option String)
    (configuration : Option Configuration) (windows_abi : Option WindowsABI)
    (cargo_pkg_name : Option String) :
    (generate_gdextension_manifest base_dir target_dir configuration windows_abi
        cargo_pkg_name).libraries.length = 60
    ∧ (generate_gdextension_manifest base_dir target_dir configuration windows_abi
        cargo_pkg_name).libraries ≠ [] := by
  have h : (generate_gdextension_manifest base_dir target_dir configuration windows_abi
      cargo_pkg_name).libraries.length = 60 := by
    show ((GDExtension.from_config (configuration.getD Configuration.godotRustBookDefault)
        ).generate_libs base_dir _ (windows_abi.getD WindowsABI.msvc)
        (target_dir.getD "../rust/target")).libraries.length = 60
    rw [generate_libs_spec, List.length_map, libsEnum_length]
  refine ⟨h, fun hnil => ?_⟩
  rw [hnil] at h
  exact absurd h (by decide)

/-- Counterexample for C3 as stated: `GDExtension::from_config` itself
produces a manifest value whose libraries section is empty, and no
configuration-error check for an empty library table exists anywhere in
the pipeline — so a "Manifest with an empty libraries section" is
produced (though never handed to the serializer). -/
theorem claim_C3_counterexample :
    (GDExtension.from_config Configuration.default).libraries = ([] : TomlTable) := rfl

/-! ## The base-class inference scanner (src/gdext/icons.rs `find_children`,
and the `simple_find_icons` variant in src/gdext/icons/mod.rs) -/

/-- Matcher for the pattern `base\\s*\\=\\s*[\\w_\\d]+\\s*[),]`
(src/gdext/icons.rs line 195) at one start position: the literal `base`,
optional whitespace, `=`, optional whitespace, a nonempty identifier,
optional whitespace and a closing `)` or `,`; greedy and deterministic
because the character classes are disjoint. -/
def matchBaseA (l : List Char) : Option (List Char) :=
  match l with
  | 'b' :: 'a' :: 's' :: 'e' :: r0 =>
    let s1 := r0.span isWS
    (match s1.2 with
      | '=' :: r2 =>
        let s2 := r2.span isWS
        let s3 := s2.2.span isWordChar
        if s3.1.isEmpty then none
        else
          let s4 := s3.2.span isWS
          (match s4.2 with
            | c :: _ =>
              if c = ')' ∨ c = ',' then
                some ('b' :: 'a' :: 's' :: 'e' :: (s1.1 ++ '=' :: (s2.1 ++ s3.1 ++ s4.1 ++ [c])))
              else none
            | [] => none)
      | _ => none)
  | _ => none

/-- Matcher for the pattern `struct\\s*[\\w_\\d]+\\s*[{;<]`
(src/gdext/icons.rs line 197) at one start position. -/
def matchStructA (l : List Char) : Option (List Char) :=
  match l with
  | 's' :: 't' :: 'r' :: 'u' :: 'c' :: 't' :: r0 =>
    let s1 := r0.span isWS
    let s2 := s1.2.span isWordChar
    if s2.1.isEmpty then none
    else
      let s3 := s2.2.span isWS
      (match s3.2 with
        | c :: _ =>
          if c = openBraceChar ∨ c = ';' ∨ c = '<' then
            some ('s' :: 't' :: 'r' :: 'u' :: 'c' :: 't' :: (s1.1 ++ s2.1 ++ s3.1 ++ [c]))
          else none
        | [] => none)
  | _ => none

/-- Matcher for the pattern `base(\\s+)?\\=(\\s+)?[\\w|_|\\d]+`
(src/gdext/icons/mod.rs line 148) at one start position; no closing
delimiter is required and the identifier class admits the pipe. -/
def matchBaseB (l : List Char) : Option (List Char) :=
  match l with
  | 'b' :: 'a' :: 's' :: 'e' :: r0 =>
    let s1 := r0.span isWS
    (match s1.2 with
      | '=' :: r2 =>
        let s2 := r2.span isWS
        let s3 := s2.2.span isWordBarChar
        if s3.1.isEmpty then none
        else some ('b' :: 'a' :: 's' :: 'e' :: (s1.1 ++ '=' :: (s2.1 ++ s3.1)))
      | _ => none)
  | _ => none

/-- Matcher for the pattern `struct(\\s+)?[\\w|_|\\d]+`
(src/gdext/icons/mod.rs line 150) at one start position. -/
def matchStructB (l : List Char) : Option (List Char) :=
  match l with
  | 's' :: 't' :: 'r' :: 'u' :: 'c' :: 't' :: r0 =>
    let s1 := r0.span isWS
    let s2 := s1.2.span isWordBarChar
    if s2.1.isEmpty then none
    else some ('s' :: 't' :: 'r' :: 'u' :: 'c' :: 't' :: (s1.1 ++ s2.1))
  | _ => none

/-- The scan state threaded through `find_children`: the accumulated
base-class map, the remembered base-class string (kept across units in
both variants) and the per-unit `found_base` flag (`Idle` when false,
`BaseSeen` when true). -/
structure ScanState where
  base_class_to_nodes : List (String × List String)
  base_class : String
  found_base : Bool
  deriving DecidableEq, Repr

/-- Model of `HashMap::contains_key` on the association-list model. -/
def mapContainsKey (m : List (String × List String)) (k : String) : Bool :=
  m.any (fun p => p.1 = k)

/-- Model of `HashMap::get_mut(..).expect(..).push(v)`: `none` models the `expect`
panic when the key is absent. -/
def mapPush : List (String × List String) → String → String → Option (List (String × List String))
  | [], _, _ => none
  | (k, vs) :: rest, key, v =>
    if k = key then some ((k, vs ++ [v]) :: rest)
    else (mapPush rest key v).map (fun m => (k, vs) :: m)

/-- One line of the `find_children` scan in src/gdext/icons.rs (lines
210-242): a base-marker line either extracts (inserting the trimmed base
key if absent, remembering the popped-but-untrimmed base string, moving to
`BaseSeen`) or is skipped by `continue`; in `BaseSeen`, a struct-marker
line either appends the extracted entity under the remembered base
(`none` models the `expect` panic when that key is missing) or is skipped
by `continue`; every other line leaves the state unchanged. -/
def find_children_step (st : ScanState) (line : String) : Option ScanState :=
  let l := line.data
  if ¬ ("///".data.isPrefixOf l) ∧ hasInfix "base".data l ∧ hasInfix "=".data l then
    match findMatch matchBaseA l with
    | none => some st
    | some m =>
      let base_class := ((replaceBase m).filter (fun c => ¬ c = '=')).dropLast
      let base_class_trimmed := String.mk (trimChars base_class)
      some { base_class_to_nodes :=
               if mapContainsKey st.base_class_to_nodes base_class_trimmed then
                 st.base_class_to_nodes
               else st.base_class_to_nodes ++ [(base_class_trimmed, [])]
             base_class := String.mk base_class
             found_base := true }
  else if st.found_base ∧ ¬ ("///".data.isPrefixOf l) ∧ hasInfix "struct".data l then
    match findMatch matchStructA l with
    | none => some st
    | some m =>
      let struct_class := (replaceStruct m).dropLast
      let struct_class_trimmed := String.mk (trimChars struct_class)
      match mapPush st.base_class_to_nodes st.base_class struct_class_trimmed with
      | none => none
      | some m' => some { st with base_class_to_nodes := m', found_base := false }
  else some st

/-- One line of the `simple_find_icons` variant of `find_children` in
src/gdext/icons/mod.rs (lines 162-194): a base-marker line (no
doc-comment guard here) stores the extracted base or the sentinel
`"ERROR"` on extraction failure, inserting the key if absent; in
`BaseSeen`, a struct-marker line pushes the extracted entity or the
sentinel `"ERROR"` under the remembered base. -/
def find_children_simple_step (st : ScanState) (line : String) : Option ScanState :=
  let l := line.data
  if hasInfix "base".data l ∧ hasInfix "=".data l then
    let base_class :=
      match findMatch matchBaseB l with
      | none => "ERROR"
      | some m => String.mk (trimChars ((replaceBase m).filter (fun c => ¬ c = '=')))
    some { base_class_to_nodes :=
             if mapContainsKey st.base_class_to_nodes base_class then
               st.base_class_to_nodes
             else st.base_class_to_nodes ++ [(base_class, [])]
           base_class := base_class
           found_base := true }
  else if st.found_base ∧ ¬ ("///".data.isPrefixOf l) ∧ hasInfix "struct".data l then
    let struct_class :=
      match findMatch matchStructB l with
      | none => "ERROR"
      | some m => String.mk (trimChars (replaceStruct m))
    match mapPush st.base_class_to_nodes st.base_class struct_class with
    | none => none
    | some m' => some { st with base_class_to_nodes := m', found_base := false }
  else some st

/-- Scanning the lines of one source unit with a given per-line step. -/
def find_children_unit (step : ScanState → String → Option ScanState)
    (st : ScanState) (lines : List String) : Option ScanState :=
  lines.foldlM step st

/-- Scanning a list of source units: `found_base` is reset to `Idle` at
the start of every unit (the remembered base string and the map persist,
as in the code). -/
def find_children_run (step : ScanState → String → Option ScanState)
    (st : ScanState) (units : List (List String)) : Option ScanState :=
  units.foldlM (fun st unit =>
    find_children_unit step { st with found_base := false } unit) st

example :
    find_children_run find_children_step ⟨[], "", false⟩
      [["/// doc", "base=Node,", "", "struct Foo;"]]
    = some ⟨[("Node", ["Foo"])], "Node", false⟩ := by decide

-- The icons.rs variant stores the un-trimmed base string but inserts the
-- trimmed key, so a spaced declaration panics at the struct line.
example :
    find_children_run find_children_step ⟨[], "", false⟩
      [["base = Node,", "struct Foo;"]]
    = none := by decide

example :
    find_children_run find_children_simple_step ⟨[], "", false⟩
      [["base = Node,", "struct Foo;"]]
    = some ⟨[("Node", ["Foo"])], "Node", false⟩ := by decide

/-- C4 (amended, icons.rs variant): on every line where a marker is
present but the narrow pattern cannot isolate the identifier, the scan
skips the line via `continue`: the state (map, remembered base, flag) is
unchanged, no map entry is added, and scanning the unit continues exactly
as if the line were absent. -/
theorem claim_C4_amended (st : ScanState) (line : String)
    (h : ((¬ ("///".data.isPrefixOf line.data) ∧ hasInfix "base".data line.data
            ∧ hasInfix "=".data line.data)
          ∧ findMatch matchBaseA line.data = none)
       ∨ (¬ (¬ ("///".data.isPrefixOf line.data) ∧ hasInfix "base".data line.data
            ∧ hasInfix "=".data line.data)
          ∧ (st.found_base ∧ ¬ ("///".data.isPrefixOf line.data)
            ∧ hasInfix "struct".data line.data)
          ∧ findMatch matchStructA line.data = none)) :
    find_children_step st line = some st
    ∧ ∀ rest : List String,
        find_children_unit find_children_step st (line :: rest)
          = find_children_unit find_children_step st rest := by
  have hstep : find_children_step st line = some st := by
    rcases h with ⟨hc, hr⟩ | ⟨hnc, hc, hr⟩
    · simp only [find_children_step]
      rw [if_pos hc, hr]
    · simp only [find_children_step]
      rw [if_neg hnc, if_pos hc, hr]
  refine ⟨hstep, fun rest => ?_⟩
  simp [find_children_unit, List.foldlM, hstep]

/-- Witness for the amended C4: a base-marker line whose identifier the
pattern cannot isolate, scanned in the `BaseSeen` state, is skipped with
the state intact. -/
theorem claim_C4_witness :
    ((¬ ("///".data.isPrefixOf "base = )".data)
        ∧ hasInfix "base".data "base = )".data
        ∧ hasInfix "=".data "base = )".data)
      ∧ findMatch matchBaseA "base = )".data = none)
    ∧ find_children_step ⟨[("Node", ["Foo"])], "Node", true⟩ "base = )"
        = some ⟨[("Node", ["Foo"])], "Node", true⟩ :=
  ⟨⟨by decide, by decide⟩,
    (claim_C4_amended ⟨[("Node", ["Foo"])], "Node", true⟩ "base = )"
      (Or.inl ⟨by decide, by decide⟩)).1⟩

/-- Counterexample for C4 as stated: in the `simple_find_icons` variant
(src/gdext/icons/mod.rs), the line `"x = base"` carries the base marker
(`base` and `=` both present) and the pattern cannot isolate an
identifier, yet the scan does not skip the line: the sentinel `"ERROR"`
is inserted as a new map entry and the state moves to `BaseSeen "ERROR"`
instead of remaining unchanged (the scan still does not abort). -/
theorem claim_C4_counterexample :
    (hasInfix "base".data "x = base".data = true
      ∧ hasInfix "=".data "x = base".data = true
      ∧ findMatch matchBaseB "x = base".data = none)
    ∧ find_children_simple_step ⟨[], "", false⟩ "x = base"
        = some ⟨[("ERROR", [])], "ERROR", true⟩
    ∧ ¬ find_children_simple_step ⟨[], "", false⟩ "x = base"
        = some ⟨[], "", false⟩ := by
  refine ⟨⟨by decide, by decide, by decide⟩, by decide, by decide⟩
